import Mathlib

/-!
# Verification of the ENGS230 Qiskit assignment notebooks

This development embeds the two notebooks of the repository in Lean 4 and
proves the specified properties about them.

* `LogicGates` embeds `ClassicalLogicGates.ipynb`.  Every circuit there applies
  only the gates X, CNOT and Toffoli to computational-basis states and measures
  with a single shot, so the qasm simulator is exactly the classical reversible
  semantics of those gates on bit vectors; we model qubit states as `Nat → Bool`
  (all qubits start in the zero state) and measurement as reading the bit.
  The measured output string follows Qiskit's convention: the classical
  register is printed with bit `c[k-1]` first and `c[0]` last.

* `VarLoop` models the idealized variational loop of the specification
  (the concrete repository delegates the loop to an external minimizer, so
  the loop itself is not part of the source tree).

* `Qaoa` embeds the parameter flow of `create_circuit` / `evaluate_circuit`
  from `QAOA.ipynb`, keeping the quantum library opaque.
-/

namespace LogicGates

/-- A gate of the instruction set used by the notebook: `x t` flips qubit `t`,
`cx c t` flips `t` when `c` is set, `ccx a b t` flips `t` when both `a` and `b`
are set.  These are the classical actions of X, CNOT and Toffoli on basis
states, which is all the notebook's circuits ever produce. -/
inductive Gate where
  | x (t : Nat)
  | cx (c t : Nat)
  | ccx (a b t : Nat)
deriving DecidableEq, Repr

/-- Apply one gate to a basis state (qubit index to bit). -/
def applyGate (s : Nat → Bool) : Gate → (Nat → Bool)
  | Gate.x t => Function.update s t (!(s t))
  | Gate.cx c t => Function.update s t (xor (s c) (s t))
  | Gate.ccx a b t => Function.update s t (xor (s a && s b) (s t))

/-- Run a list of gates on a basis state, in order. -/
def runGates (gs : List Gate) (s : Nat → Bool) : Nat → Bool :=
  gs.foldl applyGate s

/-- The all-zero initial state of a fresh quantum register. -/
def zeroState : Nat → Bool := fun _ => false

/-- Measuring one qubit yields the one-character bitstring of its value. -/
def bitStr (b : Bool) : String := if b then "1" else "0"

/-- The encoding step shared by every function of the notebook: a qubit is
flipped exactly when the corresponding input string equals `"1"`. -/
def encode1 (input : String) (t : Nat) : List Gate :=
  if input = "1" then [Gate.x t] else []

/-- `NOT` from the notebook: encode the input on qubit 0, apply `x`, measure
qubit 0 into the single classical bit. -/
def NOT (input : String) : String :=
  let s := runGates (encode1 input 0 ++ [Gate.x 0]) zeroState
  bitStr (s 0)

/-- `XOR` from the notebook: encode the two inputs on qubits 0 and 1, apply
`cx 0 1`, measure qubit 1. -/
def XOR (input1 input2 : String) : String :=
  let s := runGates (encode1 input1 0 ++ encode1 input2 1 ++ [Gate.cx 0 1]) zeroState
  bitStr (s 1)

/-- `AND` from the notebook: encode on qubits 0 and 1, apply `ccx 0 1 2`,
measure qubit 2. -/
def AND (input1 input2 : String) : String :=
  let s := runGates (encode1 input1 0 ++ encode1 input2 1 ++ [Gate.ccx 0 1 2]) zeroState
  bitStr (s 2)

/-- `NAND` from the notebook: as `AND`, followed by `x` on qubit 2. -/
def NAND (input1 input2 : String) : String :=
  let s := runGates
    (encode1 input1 0 ++ encode1 input2 1 ++ [Gate.ccx 0 1 2, Gate.x 2]) zeroState
  bitStr (s 2)

/-- `OR` from the notebook: encode on qubits 0 and 1, then `ccx 0 1 2`,
`cx 0 1`, `cx 1 2`, measure qubit 2. -/
def OR (input1 input2 : String) : String :=
  let s := runGates
    (encode1 input1 0 ++ encode1 input2 1 ++
      [Gate.ccx 0 1 2, Gate.cx 0 1, Gate.cx 1 2]) zeroState
  bitStr (s 2)

/-- `FANOUT` from the notebook: for input `"1"` flip both qubits, then measure
qubit 0 into `c[0]` and qubit 1 into `c[1]`.  Qiskit prints the two-bit
classical register as `c[1]` followed by `c[0]`. -/
def FANOUT (input : String) : String :=
  let s := runGates (if input = "1" then [Gate.x 0, Gate.x 1] else []) zeroState
  bitStr (s 1) ++ bitStr (s 0)

/-- The bit denoted by an input string under the notebook's encoding. -/
def bitOf (input : String) : Bool := input = "1"

end LogicGates

namespace VarLoop

/-- Modelled from the spec: the repository's variational loop is performed by
an external minimizer (`scipy.optimize.minimize` with COBYLA in `QAOA.ipynb`),
so the loop itself is absent from the source tree; this section models the
idealized `VariationalLoop` of the specification (sections 4.1, 6, 7, 8).
Real-valued costs and parameters are modelled as rationals; a float that is
non-finite (NaN or Inf) is modelled as `none`, a finite one as `some c`. -/
def Objective : Type := List ℚ → Option ℚ

/-- Status of a loop run: the state machine of the spec is
INIT to ITERATING to one of the three terminal states. -/
inductive Status where
  | INIT
  | ITERATING
  | CONVERGED
  | BUDGET_EXHAUSTED
  | FAILED
deriving DecidableEq, Repr

/-- The three terminal states. -/
def Status.isTerminal : Status → Bool
  | Status.CONVERGED => true
  | Status.BUDGET_EXHAUSTED => true
  | Status.FAILED => true
  | _ => false

/-- Modelled from the spec: the configuration options of section 6:
`max_evaluations: int (>0)`, `convergence_tolerance: float (>=0)`,
`initial_step: float (>0)`, `bounds: optional per-parameter [min,max]`,
together with the initial parameter vector of section 4.1. -/
structure Config where
  max_evaluations : ℤ
  convergence_tolerance : ℚ
  initial_step : ℚ
  initial : List ℚ
  bounds : Option (List (ℚ × ℚ))
deriving Repr

/-- Bounds, when configured, must list one interval per parameter. -/
def Config.boundsOk (cfg : Config) : Bool :=
  match cfg.bounds with
  | none => true
  | some bs => bs.length == cfg.initial.length

/-- Modelled from the spec: the configuration is valid when
`max_evaluations > 0`, the tolerance is nonnegative and the initial vector
and bounds are consistent in dimension (section 7). -/
def Config.validb (cfg : Config) : Bool :=
  decide (0 < cfg.max_evaluations) &&
    decide (0 ≤ cfg.convergence_tolerance) && cfg.boundsOk

/-- The number of vertices of the initial simplex around the initial vector:
one per coordinate direction plus the initial vector itself. -/
def Config.simplexSize (cfg : Config) : Nat := cfg.initial.length + 1

/-- The configuration error of section 7, raised before any evaluation. -/
inductive ConfigError where
  | invalidConfiguration
deriving DecidableEq, Repr

/-- Modelled from the spec: the `OptimizationState` of section 3 — the best
parameter vector found so far with its cost (`none` while no finite cost has
been obtained), the evaluation and iteration counts, the optimizer-internal
step size, and, for accounting of objective calls, the list of parameter
vectors at which `evaluate` has been called. -/
structure OptState where
  best_parameters : List ℚ
  best_cost : Option ℚ
  evaluations_used : Nat
  iteration : Nat
  step_size : ℚ
  history : List (List ℚ)
  status : Status
deriving DecidableEq, Repr

/-- Modelled from the spec: the result structure of section 6. -/
structure VariationalResult where
  best_parameters : List ℚ
  best_cost : Option ℚ
  evaluations_used : Nat
  status : Status
deriving DecidableEq, Repr

/-- Clamp a coordinate into a configured interval. -/
def clamp1 (b : ℚ × ℚ) (x : ℚ) : ℚ := max b.1 (min b.2 x)

/-- Modelled from the spec: a candidate violating the configured bounds is
projected back into the feasible region before evaluation (section 4.1). -/
def project (bounds : Option (List (ℚ × ℚ))) (v : List ℚ) : List ℚ :=
  match bounds with
  | none => v
  | some bs => (v.zip bs).map (fun p => clamp1 p.2 p.1)

/-- Modelled from the spec: the deterministic candidate proposal of the
derivative-free search of section 4.1 — perturb the current best vector along
one coordinate direction, cycling through the directions with alternating
sign, by the current step size. -/
def propose (s : OptState) : List ℚ :=
  let d := s.best_parameters.length
  if d = 0 then s.best_parameters
  else
    let j := s.iteration % (2 * d)
    let i := j / 2
    let delta := if j % 2 = 0 then s.step_size else -s.step_size
    s.best_parameters.set i (s.best_parameters.getD i 0 + delta)

/-- Modelled from the spec: how one evaluation result updates the best-known
vertex (section 4.1 and the failure semantics).  A finite cost strictly below
the best replaces the best; ties in cost comparison prefer the vertex
discovered earlier, so an equal cost leaves the best unchanged.  A non-finite
cost (`none`) is maximally bad and is never selected as best.  A candidate
that does not improve contracts the step size. -/
def updateBest (s : OptState) (cand : List ℚ) (v : Option ℚ) : OptState :=
  match v, s.best_cost with
  | some c, some b =>
    if c < b then { s with best_parameters := cand, best_cost := some c }
    else { s with step_size := s.step_size / 2 }
  | some c, none => { s with best_parameters := cand, best_cost := some c }
  | none, _ => { s with step_size := s.step_size / 2 }

/-- Modelled from the spec: one step of the variational loop of section 4.1.
From INIT the loop starts iterating.  While ITERATING, if the evaluation
budget is exhausted the run terminates (BUDGET_EXHAUSTED, or FAILED when no
finite cost was ever obtained); otherwise one candidate vertex is projected
into bounds and evaluated, updating the best-known vertex via `updateBest`.
If a full initial simplex of evaluations has produced no finite cost the run
terminates early with FAILED; if the step size has contracted below the
tolerance with a finite best, the run terminates with CONVERGED.  Terminal
states are absorbing. -/
def stepIter (cfg : Config) (f : List ℚ → Option ℚ) (s : OptState) : OptState :=
  match s.status with
  | Status.INIT => { s with status := Status.ITERATING }
  | Status.ITERATING =>
    if cfg.max_evaluations ≤ (s.evaluations_used : ℤ) then
      { s with status :=
          if s.best_cost.isSome then Status.BUDGET_EXHAUSTED else Status.FAILED }
    else
      let cand := project cfg.bounds (propose s)
      let s1 := updateBest s cand (f cand)
      let s2 := { s1 with evaluations_used := s.evaluations_used + 1,
                          iteration := s.iteration + 1,
                          history := s.history ++ [cand] }
      if s2.best_cost = none ∧ cfg.simplexSize ≤ s2.evaluations_used then
        { s2 with status := Status.FAILED }
      else if s2.best_cost.isSome ∧ s2.step_size ≤ cfg.convergence_tolerance then
        { s2 with status := Status.CONVERGED }
      else s2
  | _ => s

/-- The state at loop start: the initial vector, no cost yet, no evaluations,
status INIT. -/
def initState (cfg : Config) : OptState :=
  { best_parameters := cfg.initial
    best_cost := none
    evaluations_used := 0
    iteration := 0
    step_size := cfg.initial_step
    history := []
    status := Status.INIT }

/-- Enough steps for any run to reach a terminal state: one step leaves INIT,
each further step either terminates or consumes one unit of budget. -/
def Config.fuel (cfg : Config) : Nat := cfg.max_evaluations.toNat + 2

/-- The final `OptState` of a run of the variational loop. -/
def runState (cfg : Config) (f : List ℚ → Option ℚ) : OptState :=
  (stepIter cfg f)^[cfg.fuel] (initState cfg)

/-- Modelled from the spec: run the variational loop.  Configuration errors
fail fast with `InvalidConfiguration` before any evaluation (section 7);
otherwise the loop iterates to a terminal state and reports the result
structure of section 6. -/
def runLoop (cfg : Config) (f : List ℚ → Option ℚ) :
    Except ConfigError VariationalResult :=
  if cfg.validb then
    let s := runState cfg f
    Except.ok { best_parameters := s.best_parameters, best_cost := s.best_cost,
                evaluations_used := s.evaluations_used, status := s.status }
  else Except.error ConfigError.invalidConfiguration

/-- The best cost of a state, with `none` (no finite evaluation yet) read as
the top element: a vertex with non-finite cost is maximally bad. -/
def costOf (s : OptState) : WithTop ℚ :=
  match s.best_cost with
  | none => ⊤
  | some c => (c : WithTop ℚ)

end VarLoop

namespace Qaoa

/-- `create_circuit` from `QAOA.ipynb`: Python's
`sum([evolve(Hc, beta[i], qreg) + evolve(Hm, gamma[i], qreg) for i in range(p)],
circuit_init)` — a left fold of circuit addition starting from `circuit_init`,
appending for each time step `i` the evolutions of the cost Hamiltonian under
`beta[i]` and of the mixing Hamiltonian under `gamma[i]`.  The quantum library
is kept opaque: circuits, Hamiltonians, circuit addition and `evolve` are
parameters.  List indexing `beta[i]` is modelled totally with `getD` (the
notebook only indexes within bounds); angles are modelled as rationals. -/
def create_circuit {Circ Ham : Type} (add : Circ → Circ → Circ)
    (evolve : Ham → ℚ → Circ) (circuit_init : Circ) (Hc Hm : Ham) (p : Nat)
    (beta gamma : List ℚ) : Circ :=
  (List.range p).foldl
    (fun acc i =>
      add acc (add (evolve Hc (beta.getD i 0)) (evolve Hm (gamma.getD i 0))))
    circuit_init

/-- `evaluate_circuit` from `QAOA.ipynb`: build the circuit from the singleton
lists `[beta_gamma[0]]` and `[beta_gamma[1]]` (the notebook fixes `p = 1`),
wrap it in the evaluation circuit of the cost Hamiltonian, execute it on the
statevector simulator and extract the expectation value.  The library calls
`construct_evaluation_circuit`, statevector execution and
`evaluate_with_result` are opaque parameters; `beta_gamma[0]` and
`beta_gamma[1]` are modelled totally with `getD` as in `create_circuit`. -/
def evaluate_circuit {Circ Ham Res : Type} (add : Circ → Circ → Circ)
    (evolve : Ham → ℚ → Circ) (construct_evaluation_circuit : Circ → Circ)
    (executeStatevector : Circ → Res) (evaluate_with_result : Res → ℚ)
    (circuit_init : Circ) (Hc Hm : Ham) (beta_gamma : List ℚ) : ℚ :=
  evaluate_with_result (executeStatevector (construct_evaluation_circuit
    (create_circuit add evolve circuit_init Hc Hm 1
      [beta_gamma.getD 0 0] [beta_gamma.getD 1 0])))

end Qaoa

namespace Fixtures

/-- A valid loop configuration used as a concrete test input: budget 1,
tolerance 0, unit step, zero-dimensional parameter space, no bounds. -/
def cfgW : VarLoop.Config :=
  { max_evaluations := 1, convergence_tolerance := 0, initial_step := 1,
    initial := [], bounds := none }

/-- An invalid loop configuration (budget 0) used as a concrete test input. -/
def cfgBad : VarLoop.Config :=
  { max_evaluations := 0, convergence_tolerance := 0, initial_step := 1,
    initial := [], bounds := none }

/-- The objective that always returns the finite cost 0. -/
def fzero : List ℚ → Option ℚ := fun _ => some 0

/-- An objective extensionally equal to `fzero` but syntactically
different: it tests its argument against itself before returning cost 0. -/
def fzero2 : List ℚ → Option ℚ := fun v => if v = v then some 0 else none

/-- The objective that always returns a non-finite value. -/
def fnone : List ℚ → Option ℚ := fun _ => none

/-- A concrete optimization state in the terminal status CONVERGED. -/
def stateConv : VarLoop.OptState :=
  { best_parameters := [], best_cost := some 0, evaluations_used := 1,
    iteration := 1, step_size := 0, history := [[]],
    status := VarLoop.Status.CONVERGED }

end Fixtures

namespace LogicGates

/-- C1: for every input string drawn from "0" and "1" (and every pair of such
strings for the two-input gates), the functions return the output of the
corresponding classical logic gate as realised by their encoded
X/CNOT/Toffoli circuits: NOT the complement bit, XOR the sum modulo 2, AND
the conjunction, NAND the negated conjunction, OR the disjunction, FANOUT two
copies of the input bit. -/
theorem c1_gates_implement_truth_tables (a b : String)
    (ha : a = "0" ∨ a = "1") (hb : b = "0" ∨ b = "1") :
    NOT a = bitStr (!(bitOf a)) ∧
    XOR a b = bitStr (xor (bitOf a) (bitOf b)) ∧
    AND a b = bitStr (bitOf a && bitOf b) ∧
    NAND a b = bitStr (!(bitOf a && bitOf b)) ∧
    OR a b = bitStr (bitOf a || bitOf b) ∧
    FANOUT a = bitStr (bitOf a) ++ bitStr (bitOf a) := by
  rcases ha with rfl | rfl <;> rcases hb with rfl | rfl <;> decide

/-- Witness for C1 at the concrete pair of inputs "1", "0". -/
theorem c1_gates_implement_truth_tables_witness :
    (("1" : String) = "0" ∨ ("1" : String) = "1") ∧
    (("0" : String) = "0" ∨ ("0" : String) = "1") ∧
    (NOT "1" = bitStr (!(bitOf "1")) ∧
     XOR "1" "0" = bitStr (xor (bitOf "1") (bitOf "0")) ∧
     AND "1" "0" = bitStr (bitOf "1" && bitOf "0") ∧
     NAND "1" "0" = bitStr (!(bitOf "1" && bitOf "0")) ∧
     OR "1" "0" = bitStr (bitOf "1" || bitOf "0") ∧
     FANOUT "1" = bitStr (bitOf "1") ++ bitStr (bitOf "1")) :=
  ⟨by decide, by decide,
    c1_gates_implement_truth_tables "1" "0" (by decide) (by decide)⟩

/-- C8: any input string other than "1" is treated exactly as "0", because the
encoding step only flips a qubit when the argument is exactly "1". -/
theorem c8_nonone_input_read_as_zero (s t : String) (hs : s ≠ "1") :
    NOT s = NOT "0" ∧ FANOUT s = FANOUT "0" ∧
    XOR s t = XOR "0" t ∧ XOR t s = XOR t "0" ∧
    AND s t = AND "0" t ∧ AND t s = AND t "0" ∧
    NAND s t = NAND "0" t ∧ NAND t s = NAND t "0" ∧
    OR s t = OR "0" t ∧ OR t s = OR t "0" := by
  have h0 : ("0" : String) ≠ "1" := by decide
  simp [NOT, XOR, AND, NAND, OR, FANOUT, encode1, if_neg hs, if_neg h0]

/-- Witness for C8 at the concrete inputs s = "x", t = "1". -/
theorem c8_nonone_input_read_as_zero_witness :
    ("x" : String) ≠ "1" ∧
    (NOT "x" = NOT "0" ∧ FANOUT "x" = FANOUT "0" ∧
     XOR "x" "1" = XOR "0" "1" ∧ XOR "1" "x" = XOR "1" "0" ∧
     AND "x" "1" = AND "0" "1" ∧ AND "1" "x" = AND "1" "0" ∧
     NAND "x" "1" = NAND "0" "1" ∧ NAND "1" "x" = NAND "1" "0" ∧
     OR "x" "1" = OR "0" "1" ∧ OR "1" "x" = OR "1" "0") :=
  ⟨by decide, c8_nonone_input_read_as_zero "x" "1" (by decide)⟩

/-- C9: on inputs drawn from "0" and "1", each single-output gate returns a
one-character measurement bitstring that is "0" or "1", and FANOUT returns a
two-character bitstring with both characters equal: "00" or "11". -/
theorem c9_outputs_are_measurement_bitstrings (a b : String)
    (ha : a = "0" ∨ a = "1") (hb : b = "0" ∨ b = "1") :
    ((NOT a).length = 1 ∧ (NOT a = "0" ∨ NOT a = "1")) ∧
    ((XOR a b).length = 1 ∧ (XOR a b = "0" ∨ XOR a b = "1")) ∧
    ((AND a b).length = 1 ∧ (AND a b = "0" ∨ AND a b = "1")) ∧
    ((NAND a b).length = 1 ∧ (NAND a b = "0" ∨ NAND a b = "1")) ∧
    ((OR a b).length = 1 ∧ (OR a b = "0" ∨ OR a b = "1")) ∧
    ((FANOUT a).length = 2 ∧ (FANOUT a = "00" ∨ FANOUT a = "11")) := by
  rcases ha with rfl | rfl <;> rcases hb with rfl | rfl <;> decide

/-- Witness for C9 at the concrete pair of inputs "0", "1". -/
theorem c9_outputs_are_measurement_bitstrings_witness :
    (("0" : String) = "0" ∨ ("0" : String) = "1") ∧
    (("1" : String) = "0" ∨ ("1" : String) = "1") ∧
    (((NOT "0").length = 1 ∧ (NOT "0" = "0" ∨ NOT "0" = "1")) ∧
     ((XOR "0" "1").length = 1 ∧ (XOR "0" "1" = "0" ∨ XOR "0" "1" = "1")) ∧
     ((AND "0" "1").length = 1 ∧ (AND "0" "1" = "0" ∨ AND "0" "1" = "1")) ∧
     ((NAND "0" "1").length = 1 ∧ (NAND "0" "1" = "0" ∨ NAND "0" "1" = "1")) ∧
     ((OR "0" "1").length = 1 ∧ (OR "0" "1" = "0" ∨ OR "0" "1" = "1")) ∧
     ((FANOUT "0").length = 2 ∧ (FANOUT "0" = "00" ∨ FANOUT "0" = "11"))) :=
  ⟨by decide, by decide,
    c9_outputs_are_measurement_bitstrings "0" "1" (by decide) (by decide)⟩

end LogicGates

namespace VarLoop

theorem updateBest_status (s : OptState) (cand : List ℚ) (v : Option ℚ) :
    (updateBest s cand v).status = s.status := by
  rcases s with ⟨bp, bc, eu, it, ss, hi, st⟩
  rcases v with _ | c <;> rcases bc with _ | b <;> simp [updateBest]
  split <;> rfl

theorem updateBest_counters (s : OptState) (cand : List ℚ) (v : Option ℚ) :
    (updateBest s cand v).evaluations_used = s.evaluations_used ∧
    (updateBest s cand v).iteration = s.iteration ∧
    (updateBest s cand v).history = s.history := by
  rcases s with ⟨bp, bc, eu, it, ss, hi, st⟩
  rcases v with _ | c <;> rcases bc with _ | b <;> simp [updateBest]
  split <;> simp

theorem updateBest_none (s : OptState) (cand : List ℚ) :
    (updateBest s cand none).best_cost = s.best_cost ∧
    (updateBest s cand none).best_parameters = s.best_parameters := by
  rcases s with ⟨bp, bc, eu, it, ss, hi, st⟩
  rcases bc with _ | b <;> simp [updateBest]

theorem costOf_congr (s t : OptState) (h : s.best_cost = t.best_cost) :
    costOf s = costOf t := by
  unfold costOf
  rw [h]

theorem updateBest_cost_le (s : OptState) (cand : List ℚ) (v : Option ℚ) :
    costOf (updateBest s cand v) ≤ costOf s := by
  rcases s with ⟨bp, bc, eu, it, ss, hi, st⟩
  rcases v with _ | c
  · exact le_of_eq (costOf_congr _ _ rfl)
  · rcases bc with _ | b
    · simp [updateBest, costOf]
    · simp only [updateBest]
      split
      · rename_i hcb
        simp only [costOf, WithTop.coe_le_coe]
        exact le_of_lt hcb
      · simp [costOf]

end VarLoop

namespace VarLoop

theorem stepIter_terminal (cfg : Config) (f : List ℚ → Option ℚ) (s : OptState)
    (h : s.status.isTerminal = true) : stepIter cfg f s = s := by
  rcases s with ⟨bp, bc, eu, it, ss, hi, st⟩
  cases st
  · simp [Status.isTerminal] at h
  · simp [Status.isTerminal] at h
  · rfl
  · rfl
  · rfl

theorem iterate_terminal (cfg : Config) (f : List ℚ → Option ℚ) (m : Nat)
    (s : OptState) (h : s.status.isTerminal = true) :
    (stepIter cfg f)^[m] s = s := by
  induction m with
  | zero => rfl
  | succ n ih => rw [Function.iterate_succ_apply, stepIter_terminal cfg f s h, ih]

theorem stepIter_status_shape (cfg : Config) (f : List ℚ → Option ℚ)
    (s : OptState) :
    (stepIter cfg f s).status = s.status ∨
    (s.status = Status.INIT ∧ (stepIter cfg f s).status = Status.ITERATING) ∨
    (s.status = Status.ITERATING ∧
      ((stepIter cfg f s).status).isTerminal = true) := by
  rcases s with ⟨bp, bc, eu, it, ss, hi, st⟩
  cases st
  case INIT => exact Or.inr (Or.inl ⟨rfl, rfl⟩)
  case ITERATING =>
    by_cases hbud : cfg.max_evaluations ≤ (eu : ℤ)
    · refine Or.inr (Or.inr ⟨rfl, ?_⟩)
      simp only [stepIter, if_pos hbud]
      rcases bc with _ | b <;> rfl
    · simp only [stepIter, if_neg hbud]
      split
      · exact Or.inr (Or.inr ⟨by trivial, by simp [Status.isTerminal]⟩)
      · split
        · exact Or.inr (Or.inr ⟨by trivial, by simp [Status.isTerminal]⟩)
        · left
          exact updateBest_status _ _ _
  case CONVERGED => left; rfl
  case BUDGET_EXHAUSTED => left; rfl
  case FAILED => left; rfl

end VarLoop

namespace VarLoop

theorem stepIter_cost_le (cfg : Config) (f : List ℚ → Option ℚ) (s : OptState) :
    costOf (stepIter cfg f s) ≤ costOf s := by
  rcases s with ⟨bp, bc, eu, it, ss, hi, st⟩
  cases st
  case INIT => exact le_of_eq (costOf_congr _ _ rfl)
  case ITERATING =>
    by_cases hbud : cfg.max_evaluations ≤ (eu : ℤ)
    · simp only [stepIter, if_pos hbud]
      exact le_of_eq (costOf_congr _ _ rfl)
    · simp only [stepIter, if_neg hbud]
      split
      · exact le_trans (le_of_eq (costOf_congr _ _ rfl)) (updateBest_cost_le _ _ _)
      · split
        · exact le_trans (le_of_eq (costOf_congr _ _ rfl)) (updateBest_cost_le _ _ _)
        · exact le_trans (le_of_eq (costOf_congr _ _ rfl)) (updateBest_cost_le _ _ _)
  case CONVERGED => exact le_refl _
  case BUDGET_EXHAUSTED => exact le_refl _
  case FAILED => exact le_refl _

theorem stepIter_budget_status (cfg : Config) (f : List ℚ → Option ℚ)
    (s : OptState) (hbud : cfg.max_evaluations ≤ (s.evaluations_used : ℤ)) :
    s.status = Status.ITERATING → ((stepIter cfg f s).status).isTerminal = true := by
  rcases s with ⟨bp, bc, eu, it, ss, hi, st⟩
  cases st
  case ITERATING =>
    intro _
    simp only [stepIter, if_pos hbud]
    rcases bc with _ | b <;> rfl
  all_goals exact fun hst => Status.noConfusion hst

theorem stepIter_eval_eu (cfg : Config) (f : List ℚ → Option ℚ) (s : OptState)
    (hst : s.status = Status.ITERATING)
    (hbud : ¬ cfg.max_evaluations ≤ (s.evaluations_used : ℤ)) :
    (stepIter cfg f s).evaluations_used = s.evaluations_used + 1 := by
  rcases s with ⟨bp, bc, eu, it, ss, hi, st⟩
  cases st
  case ITERATING =>
    simp only [stepIter, if_neg hbud]
    split
    · rfl
    · split
      · rfl
      · rfl
  all_goals exact Status.noConfusion hst

theorem stepIter_eu_le (cfg : Config) (f : List ℚ → Option ℚ) (s : OptState)
    (h : (s.evaluations_used : ℤ) ≤ cfg.max_evaluations) :
    ((stepIter cfg f s).evaluations_used : ℤ) ≤ cfg.max_evaluations := by
  rcases s with ⟨bp, bc, eu, it, ss, hi, st⟩
  replace h : (eu : ℤ) ≤ cfg.max_evaluations := h
  cases st
  case INIT => exact h
  case ITERATING =>
    by_cases hbud : cfg.max_evaluations ≤ (eu : ℤ)
    · simp only [stepIter, if_pos hbud]
      exact h
    · simp only [stepIter, if_neg hbud]
      split
      · show ((eu + 1 : ℕ) : ℤ) ≤ cfg.max_evaluations
        omega
      · split
        · show ((eu + 1 : ℕ) : ℤ) ≤ cfg.max_evaluations
          omega
        · show ((eu + 1 : ℕ) : ℤ) ≤ cfg.max_evaluations
          omega
  case CONVERGED => exact h
  case BUDGET_EXHAUSTED => exact h
  case FAILED => exact h

theorem stepIter_hist (cfg : Config) (f : List ℚ → Option ℚ) (s : OptState)
    (h : s.history.length = s.evaluations_used) :
    (stepIter cfg f s).history.length = (stepIter cfg f s).evaluations_used := by
  rcases s with ⟨bp, bc, eu, it, ss, hi, st⟩
  replace h : hi.length = eu := h
  cases st
  case INIT => exact h
  case ITERATING =>
    by_cases hbud : cfg.max_evaluations ≤ (eu : ℤ)
    · simp only [stepIter, if_pos hbud]
      exact h
    · simp only [stepIter, if_neg hbud]
      split
      · simp only [List.length_append, List.length_singleton]
        show hi.length + 1 = eu + 1
        omega
      · split
        · simp only [List.length_append, List.length_singleton]
          show hi.length + 1 = eu + 1
          omega
        · simp only [List.length_append, List.length_singleton]
          show hi.length + 1 = eu + 1
          omega
  case CONVERGED => exact h
  case BUDGET_EXHAUSTED => exact h
  case FAILED => exact h

end VarLoop

namespace VarLoop

theorem iterate_eu_le (cfg : Config) (f : List ℚ → Option ℚ)
    (h0 : 0 ≤ cfg.max_evaluations) (n : Nat) :
    ((((stepIter cfg f)^[n]) (initState cfg)).evaluations_used : ℤ) ≤
      cfg.max_evaluations := by
  induction n with
  | zero => exact h0
  | succ n ih =>
    rw [Function.iterate_succ_apply']
    exact stepIter_eu_le cfg f _ ih

theorem iterate_hist (cfg : Config) (f : List ℚ → Option ℚ) (n : Nat) :
    (((stepIter cfg f)^[n]) (initState cfg)).history.length =
      (((stepIter cfg f)^[n]) (initState cfg)).evaluations_used := by
  induction n with
  | zero => rfl
  | succ n ih =>
    rw [Function.iterate_succ_apply']
    exact stepIter_hist cfg f _ ih

theorem iterate_terminates (cfg : Config) (f : List ℚ → Option ℚ) :
    ∀ (n : Nat) (s : OptState), s.status = Status.ITERATING →
      cfg.max_evaluations ≤ (s.evaluations_used : ℤ) + n →
      ((((stepIter cfg f)^[n + 1]) s).status).isTerminal = true := by
  intro n
  induction n with
  | zero =>
    intro s hst hbud
    rw [Function.iterate_one]
    exact stepIter_budget_status cfg f s (by simpa using hbud) hst
  | succ n ih =>
    intro s hst hbud
    by_cases hb : cfg.max_evaluations ≤ (s.evaluations_used : ℤ)
    · have hterm := stepIter_budget_status cfg f s hb hst
      rw [Function.iterate_succ_apply, iterate_terminal cfg f (n + 1) _ hterm]
      exact hterm
    · rw [Function.iterate_succ_apply]
      have heu := stepIter_eval_eu cfg f s hst hb
      rcases stepIter_status_shape cfg f s with hsh | ⟨hini, _⟩ | ⟨_, hterm⟩
      · refine ih (stepIter cfg f s) (by rw [hsh, hst]) ?_
        rw [heu]
        push_cast
        push_cast at hbud
        omega
      · rw [hst] at hini
        exact Status.noConfusion hini
      · rw [iterate_terminal cfg f (n + 1) _ hterm]
        exact hterm

theorem runState_terminal (cfg : Config) (f : List ℚ → Option ℚ) :
    (((runState cfg f).status)).isTerminal = true := by
  show ((((stepIter cfg f)^[cfg.max_evaluations.toNat + 1 + 1]) (initState cfg)).status).isTerminal = true
  rw [Function.iterate_succ_apply]
  have hstep : stepIter cfg f (initState cfg) =
      { initState cfg with status := Status.ITERATING } := rfl
  rw [hstep]
  refine iterate_terminates cfg f cfg.max_evaluations.toNat _ rfl ?_
  show cfg.max_evaluations ≤ ((0 : ℕ) : ℤ) + cfg.max_evaluations.toNat
  simp [Int.self_le_toNat]

end VarLoop

namespace VarLoop

theorem stepIter_none_preserved (cfg : Config) (f : List ℚ → Option ℚ)
    (hf : ∀ v, f v = none) (s : OptState) (hbc : s.best_cost = none)
    (hc : s.status ≠ Status.CONVERGED)
    (hb : s.status ≠ Status.BUDGET_EXHAUSTED) :
    (stepIter cfg f s).best_cost = none ∧
    (stepIter cfg f s).status ≠ Status.CONVERGED ∧
    (stepIter cfg f s).status ≠ Status.BUDGET_EXHAUSTED := by
  rcases s with ⟨bp, bc, eu, it, ss, hi, st⟩
  replace hbc : bc = none := hbc
  subst hbc
  cases st
  case INIT => exact ⟨rfl, Status.noConfusion, Status.noConfusion⟩
  case ITERATING =>
    by_cases hbud : cfg.max_evaluations ≤ (eu : ℤ)
    · have hred : stepIter cfg f ⟨bp, none, eu, it, ss, hi, Status.ITERATING⟩ =
          ⟨bp, none, eu, it, ss, hi, Status.FAILED⟩ := by
        simp only [stepIter, if_pos hbud]
        rfl
      rw [hred]
      exact ⟨rfl, Status.noConfusion, Status.noConfusion⟩
    · simp only [stepIter, if_neg hbud, hf, updateBest, Option.isSome_none]
      split
      · exact ⟨rfl, Status.noConfusion, Status.noConfusion⟩
      · split
        · rename_i hcond
          simp at hcond
        · exact ⟨rfl, Status.noConfusion, Status.noConfusion⟩
  case CONVERGED => exact absurd rfl hc
  case BUDGET_EXHAUSTED => exact absurd rfl hb
  case FAILED => exact ⟨rfl, Status.noConfusion, Status.noConfusion⟩

theorem runState_allnone (cfg : Config) (f : List ℚ → Option ℚ)
    (hf : ∀ v, f v = none) :
    (runState cfg f).best_cost = none ∧
    (runState cfg f).status = Status.FAILED := by
  have key : ∀ n, ((((stepIter cfg f)^[n]) (initState cfg)).best_cost = none ∧
      (((stepIter cfg f)^[n]) (initState cfg)).status ≠ Status.CONVERGED ∧
      (((stepIter cfg f)^[n]) (initState cfg)).status ≠ Status.BUDGET_EXHAUSTED) := by
    intro n
    induction n with
    | zero => exact ⟨rfl, Status.noConfusion, Status.noConfusion⟩
    | succ n ih =>
      rw [Function.iterate_succ_apply']
      exact stepIter_none_preserved cfg f hf _ ih.1 ih.2.1 ih.2.2
  have hterm := runState_terminal cfg f
  obtain ⟨h1, h2, h3⟩ := key cfg.fuel
  refine ⟨h1, ?_⟩
  rcases hst : (runState cfg f).status
  case INIT =>
    rw [hst] at hterm
    simp [Status.isTerminal] at hterm
  case ITERATING =>
    rw [hst] at hterm
    simp [Status.isTerminal] at hterm
  case CONVERGED => exact absurd hst h2
  case BUDGET_EXHAUSTED => exact absurd hst h3
  case FAILED => rfl

theorem runLoop_ok_elim (cfg : Config) (f : List ℚ → Option ℚ)
    (r : VariationalResult) (h : runLoop cfg f = Except.ok r) :
    cfg.validb = true ∧
    r.best_parameters = (runState cfg f).best_parameters ∧
    r.best_cost = (runState cfg f).best_cost ∧
    r.evaluations_used = (runState cfg f).evaluations_used ∧
    r.status = (runState cfg f).status := by
  unfold runLoop at h
  rcases hv : cfg.validb
  · rw [hv] at h
    simp at h
  · rw [hv] at h
    simp at h
    subst h
    exact ⟨rfl, rfl, rfl, rfl, rfl⟩

theorem runLoop_invalid (cfg : Config) (f : List ℚ → Option ℚ)
    (h : cfg.validb = false) :
    runLoop cfg f = Except.error ConfigError.invalidConfiguration := by
  unfold runLoop
  rw [h]
  simp

theorem validb_iff (cfg : Config) : cfg.validb = true ↔
    (0 < cfg.max_evaluations ∧ 0 ≤ cfg.convergence_tolerance ∧
      ∀ bs, cfg.bounds = some bs → bs.length = cfg.initial.length) := by
  unfold Config.validb Config.boundsOk
  rcases hb : cfg.bounds with _ | bs
  · simp
  · simp
    tauto

end VarLoop

namespace VarLoop

theorem runLoop_valid (cfg : Config) (f : List ℚ → Option ℚ)
    (h : cfg.validb = true) :
    runLoop cfg f = Except.ok
      { best_parameters := (runState cfg f).best_parameters,
        best_cost := (runState cfg f).best_cost,
        evaluations_used := (runState cfg f).evaluations_used,
        status := (runState cfg f).status } := by
  unfold runLoop
  rw [h]
  rfl

/-- C2: for every configuration and objective for which the loop runs (in
particular whenever `max_evaluations = N > 0`), the result's
`evaluations_used` is at most N, and the loop calls `evaluate` at most N
times: the history of parameter vectors passed to the objective has length
`evaluations_used`, hence at most N. -/
theorem c2_at_most_n_evaluations (cfg : Config) (f : List ℚ → Option ℚ)
    (r : VariationalResult) (h : runLoop cfg f = Except.ok r) :
    (r.evaluations_used : ℤ) ≤ cfg.max_evaluations ∧
    ((runState cfg f).history.length : ℤ) ≤ cfg.max_evaluations ∧
    (runState cfg f).history.length = r.evaluations_used := by
  obtain ⟨hv, _, _, heu, _⟩ := runLoop_ok_elim cfg f r h
  have h0 : 0 ≤ cfg.max_evaluations := le_of_lt ((validb_iff cfg).mp hv).1
  have hle := iterate_eu_le cfg f h0 cfg.fuel
  have hh := iterate_hist cfg f cfg.fuel
  refine ⟨?_, ?_, ?_⟩
  · rw [heu]
    exact hle
  · rw [show (runState cfg f).history.length = (runState cfg f).evaluations_used from hh]
    exact hle
  · rw [heu]
    exact hh

/-- Witness for C2 at a concrete configuration and objective. -/
theorem c2_at_most_n_evaluations_witness :
    runLoop Fixtures.cfgW Fixtures.fzero = Except.ok
      { best_parameters := [], best_cost := some 0, evaluations_used := 1,
        status := Status.BUDGET_EXHAUSTED } ∧
    (((1 : Nat) : ℤ) ≤ Fixtures.cfgW.max_evaluations ∧
      ((runState Fixtures.cfgW Fixtures.fzero).history.length : ℤ) ≤
        Fixtures.cfgW.max_evaluations ∧
      (runState Fixtures.cfgW Fixtures.fzero).history.length = (1 : Nat)) :=
  ⟨by rfl, c2_at_most_n_evaluations Fixtures.cfgW Fixtures.fzero
    { best_parameters := [], best_cost := some 0, evaluations_used := 1,
      status := Status.BUDGET_EXHAUSTED } (by rfl)⟩

/-- C3: the best cost recorded in the OptimizationState never regresses: for
every objective and every iteration index k, the best cost after iteration
k + 1 is less than or equal to the best cost after iteration k (a state with
no finite best cost yet counts as maximally bad). -/
theorem c3_best_cost_monotone (cfg : Config) (f : List ℚ → Option ℚ) (k : Nat) :
    costOf (((stepIter cfg f)^[k + 1]) (initState cfg)) ≤
      costOf (((stepIter cfg f)^[k]) (initState cfg)) := by
  rw [Function.iterate_succ_apply']
  exact stepIter_cost_le cfg f _

/-- C4: an invalid configuration — nonpositive evaluation budget, negative
tolerance, or bounds inconsistent with the initial vector in dimension —
makes the loop fail fast with InvalidConfiguration, and the outcome does not
depend on the objective at all: no evaluation is consumed. -/
theorem c4_invalid_configuration_fails_fast (cfg : Config)
    (f : List ℚ → Option ℚ)
    (h : cfg.max_evaluations ≤ 0 ∨ cfg.convergence_tolerance < 0 ∨
      ∃ bs, cfg.bounds = some bs ∧ bs.length ≠ cfg.initial.length) :
    runLoop cfg f = Except.error ConfigError.invalidConfiguration ∧
    ∀ g : List ℚ → Option ℚ, runLoop cfg g = runLoop cfg f := by
  have hv : cfg.validb = false := by
    rcases hvb : cfg.validb
    · rfl
    · obtain ⟨h1, h2, h3⟩ := (validb_iff cfg).mp hvb
      rcases h with h | h | ⟨bs, hb, hn⟩
      · omega
      · exact absurd h2 (not_le.mpr h)
      · exact absurd (h3 bs hb) hn
  constructor
  · exact runLoop_invalid cfg f hv
  · intro g
    rw [runLoop_invalid cfg f hv, runLoop_invalid cfg g hv]

/-- Witness for C4 at a concrete invalid configuration. -/
theorem c4_invalid_configuration_fails_fast_witness :
    (Fixtures.cfgBad.max_evaluations ≤ 0 ∨
      Fixtures.cfgBad.convergence_tolerance < 0 ∨
      ∃ bs, Fixtures.cfgBad.bounds = some bs ∧
        bs.length ≠ Fixtures.cfgBad.initial.length) ∧
    runLoop Fixtures.cfgBad Fixtures.fzero =
      Except.error ConfigError.invalidConfiguration :=
  ⟨Or.inl (by decide),
    (c4_invalid_configuration_fails_fast Fixtures.cfgBad Fixtures.fzero
      (Or.inl (by decide))).1⟩

end VarLoop

namespace VarLoop

/-- C5: a non-finite evaluation is never selected as best — a step whose
candidate evaluates to a non-finite value leaves the best-known vertex and
cost unchanged — and an objective that only ever returns non-finite values
makes the loop terminate with status FAILED, no finite best cost, and at
most the configured evaluation budget consumed. -/
theorem c5_nonfinite_evaluations (cfg : Config) (f : List ℚ → Option ℚ)
    (hv : cfg.validb = true) (hf : ∀ v, f v = none) :
    (∀ (g : List ℚ → Option ℚ) (s : OptState),
        g (project cfg.bounds (propose s)) = none →
        (stepIter cfg g s).best_cost = s.best_cost ∧
        (stepIter cfg g s).best_parameters = s.best_parameters) ∧
    runLoop cfg f = Except.ok
      { best_parameters := (runState cfg f).best_parameters,
        best_cost := none,
        evaluations_used := (runState cfg f).evaluations_used,
        status := Status.FAILED } ∧
    ((runState cfg f).evaluations_used : ℤ) ≤ cfg.max_evaluations := by
  obtain ⟨hnone, hfail⟩ := runState_allnone cfg f hf
  have h0 : 0 ≤ cfg.max_evaluations := le_of_lt ((validb_iff cfg).mp hv).1
  refine ⟨?_, ?_, iterate_eu_le cfg f h0 cfg.fuel⟩
  · intro g s hg
    rcases s with ⟨bp, bc, eu, it, ss, hi, st⟩
    cases st
    case INIT => exact ⟨rfl, rfl⟩
    case ITERATING =>
      by_cases hbud : cfg.max_evaluations ≤ (eu : ℤ)
      · simp only [stepIter, if_pos hbud]
        exact ⟨by trivial, by trivial⟩
      · simp only [stepIter, if_neg hbud, hg, updateBest]
        split
        · exact ⟨by trivial, by trivial⟩
        · split
          · exact ⟨by trivial, by trivial⟩
          · exact ⟨by trivial, by trivial⟩
    case CONVERGED => exact ⟨rfl, rfl⟩
    case BUDGET_EXHAUSTED => exact ⟨rfl, rfl⟩
    case FAILED => exact ⟨rfl, rfl⟩
  · rw [runLoop_valid cfg f hv, hnone, hfail]

/-- Witness for C5 at a concrete valid configuration and the objective that
always returns a non-finite value. -/
theorem c5_nonfinite_evaluations_witness :
    Fixtures.cfgW.validb = true ∧ Fixtures.fnone [] = none ∧
    (runLoop Fixtures.cfgW Fixtures.fnone = Except.ok
      { best_parameters := (runState Fixtures.cfgW Fixtures.fnone).best_parameters,
        best_cost := none,
        evaluations_used := (runState Fixtures.cfgW Fixtures.fnone).evaluations_used,
        status := Status.FAILED } ∧
    ((runState Fixtures.cfgW Fixtures.fnone).evaluations_used : ℤ) ≤
      Fixtures.cfgW.max_evaluations) :=
  ⟨by decide, rfl,
    (c5_nonfinite_evaluations Fixtures.cfgW Fixtures.fnone (by decide)
      (fun _ => rfl)).2⟩

/-- C6: the loop is deterministic: two runs from the identical initial
configuration with extensionally equal deterministic evaluators produce
identical results, in particular identical best_parameters and identical
evaluations_used. -/
theorem c6_deterministic_rerun (cfg : Config) (f g : List ℚ → Option ℚ)
    (h : ∀ v, f v = g v) :
    runLoop cfg f = runLoop cfg g ∧
    (runState cfg f).best_parameters = (runState cfg g).best_parameters ∧
    (runState cfg f).evaluations_used = (runState cfg g).evaluations_used := by
  have hfg : f = g := funext h
  subst hfg
  exact ⟨rfl, rfl, rfl⟩

/-- Witness for C6 at two syntactically different but extensionally equal
objectives. -/
theorem c6_deterministic_rerun_witness :
    Fixtures.fzero [] = Fixtures.fzero2 [] ∧
    runLoop Fixtures.cfgW Fixtures.fzero = runLoop Fixtures.cfgW Fixtures.fzero2 :=
  ⟨by decide,
    (c6_deterministic_rerun Fixtures.cfgW Fixtures.fzero Fixtures.fzero2
      (fun v => by simp [Fixtures.fzero, Fixtures.fzero2])).1⟩

/-- C7: the loop follows the state machine INIT to ITERATING to one of
CONVERGED, BUDGET_EXHAUSTED, FAILED: a terminal state is absorbing under any
number of further steps (so no run leaves a terminal state or moves between
terminal states), every single step either keeps the status, moves INIT to
ITERATING, or moves ITERATING to a terminal state, and every complete run
ends in a terminal state. -/
theorem c7_state_machine (cfg : Config) (f : List ℚ → Option ℚ)
    (s : OptState) :
    (s.status.isTerminal = true → ∀ m : Nat, ((stepIter cfg f)^[m]) s = s) ∧
    ((stepIter cfg f s).status = s.status ∨
      (s.status = Status.INIT ∧ (stepIter cfg f s).status = Status.ITERATING) ∨
      (s.status = Status.ITERATING ∧
        ((stepIter cfg f s).status).isTerminal = true)) ∧
    ((runState cfg f).status).isTerminal = true :=
  ⟨fun h m => iterate_terminal cfg f m s h, stepIter_status_shape cfg f s,
    runState_terminal cfg f⟩

/-- Witness for C7 at a concrete terminal state: CONVERGED is absorbing. -/
theorem c7_state_machine_witness :
    Fixtures.stateConv.status.isTerminal = true ∧
    ((stepIter Fixtures.cfgW Fixtures.fzero)^[5]) Fixtures.stateConv =
      Fixtures.stateConv :=
  ⟨by decide,
    (c7_state_machine Fixtures.cfgW Fixtures.fzero Fixtures.stateConv).1
      (by decide) 5⟩

end VarLoop

/-- C10: the value returned by evaluate_circuit depends only on the first two
components of beta_gamma: for any two parameter vectors of length at least 2
that agree at indices 0 and 1, and any interpretation of the opaque quantum
library, evaluate_circuit returns the same expectation value, regardless of
any further components. -/
theorem c10_evaluate_circuit_first_two {Circ Ham Res : Type}
    (add : Circ → Circ → Circ) (evolve : Ham → ℚ → Circ)
    (construct_evaluation_circuit : Circ → Circ)
    (executeStatevector : Circ → Res) (evaluate_with_result : Res → ℚ)
    (circuit_init : Circ) (Hc Hm : Ham) (bg1 bg2 : List ℚ)
    (_hlen1 : 2 ≤ bg1.length) (_hlen2 : 2 ≤ bg2.length)
    (h0 : bg1.getD 0 0 = bg2.getD 0 0) (h1 : bg1.getD 1 0 = bg2.getD 1 0) :
    Qaoa.evaluate_circuit add evolve construct_evaluation_circuit
        executeStatevector evaluate_with_result circuit_init Hc Hm bg1 =
      Qaoa.evaluate_circuit add evolve construct_evaluation_circuit
        executeStatevector evaluate_with_result circuit_init Hc Hm bg2 := by
  unfold Qaoa.evaluate_circuit
  rw [h0, h1]

/-- Witness for C10 at two concrete parameter vectors agreeing at indices 0
and 1 and a concrete instantiation of the opaque library. -/
theorem c10_evaluate_circuit_first_two_witness :
    2 ≤ ([1, 2, 5] : List ℚ).length ∧ 2 ≤ ([1, 2, 7, 9] : List ℚ).length ∧
    ([1, 2, 5] : List ℚ).getD 0 0 = ([1, 2, 7, 9] : List ℚ).getD 0 0 ∧
    ([1, 2, 5] : List ℚ).getD 1 0 = ([1, 2, 7, 9] : List ℚ).getD 1 0 ∧
    Qaoa.evaluate_circuit (fun a b => a + b) (fun h a => h * a) id id id
        (0 : ℚ) (1 : ℚ) (2 : ℚ) [1, 2, 5] =
      Qaoa.evaluate_circuit (fun a b => a + b) (fun h a => h * a) id id id
        (0 : ℚ) (1 : ℚ) (2 : ℚ) [1, 2, 7, 9] :=
  ⟨by decide, by decide, by decide, by decide,
    c10_evaluate_circuit_first_two (fun a b => a + b) (fun h a => h * a) id id
      id (0 : ℚ) (1 : ℚ) (2 : ℚ) [1, 2, 5] [1, 2, 7, 9] (by decide) (by decide)
      (by decide) (by decide)⟩
